import Mathlib

/-!
Verification development for the Hybrid-RAG chatbot backend.

The Python source is shallowly embedded: pandas DataFrames become lists of
rows (association lists from raw column name to cell value), the analytics
engine's working value (DataFrame / DataFrameGroupBy / Series) becomes a
three-variant sum type, fallible code returns `Except String`, and numeric
cells are rationals.  External collaborators (the LLM, the embedding model,
the filesystem) are passed in as explicit arguments.
-/

namespace HybridRag

/-- Decidable equality of fallible results, used to evaluate the model on
concrete inputs. -/
instance {ε α : Type} [DecidableEq ε] [DecidableEq α] : DecidableEq (Except ε α)
  | .error a, .error b =>
      if h : a = b then .isTrue (by rw [h]) else .isFalse (by simp [h])
  | .error _, .ok _ => .isFalse (by simp)
  | .ok _, .error _ => .isFalse (by simp)
  | .ok a, .ok b =>
      if h : a = b then .isTrue (by rw [h]) else .isFalse (by simp [h])

/-- A cell value of the tabular dataset: null (pandas NaN), a number, or a
string. -/
inductive Value where
  | vnull : Value
  | vnum  : ℚ → Value
  | vstr  : String → Value
deriving DecidableEq

/-- A row of the dataset: association list from raw column name to value,
modelling one record of a pandas DataFrame. -/
abbrev Row := List (String × Value)

/-- The dataset: its column list and its rows (a pandas DataFrame). -/
structure DataFrame where
  cols : List String
  rows : List Row
deriving DecidableEq

/-- Cell access `row[col]`.  A column name that is absent from the row reads
as null, modelling a NaN hole. -/
def getCol (r : Row) (c : String) : Value :=
  (r.lookup c).getD .vnull

/-- The values of one column, in row order (a pandas Series). -/
def colValues (rows : List Row) (c : String) : List Value :=
  rows.map (fun r => getCol r c)

/-- Schema: mapping from semantic key to raw column name
(`models/schema/schema_builder.py`).  A Python dict in insertion order. -/
abbrev Schema := List (String × String)

/-- Python-dict insert: overwriting keeps the key's original position. -/
def dictInsert (k v : String) : Schema → Schema
  | [] => [(k, v)]
  | (k', v') :: rest =>
      if k' = k then (k', v) :: rest else (k', v') :: dictInsert k v rest

/-- ASCII lower-casing of one character (`str.lower` restricted to the ASCII
range used by the dataset's column names). -/
def charLower (c : Char) : Char :=
  if 'A' ≤ c && c ≤ 'Z' then Char.ofNat (c.toNat + 32) else c

/-- `str.lower`. -/
def strLower (s : String) : String :=
  ⟨s.data.map charLower⟩

/-- Lexicographic string comparison by code point (Python `<=` on `str`). -/
def strLeData : List Char → List Char → Bool
  | [], _ => true
  | _ :: _, [] => false
  | a :: as, b :: bs =>
      if a.toNat < b.toNat then true
      else if b.toNat < a.toNat then false
      else strLeData as bs

/-- `a <= b` on strings. -/
def strLe (a b : String) : Bool :=
  strLeData a.data b.data

/-- Lower-case alphanumeric test, the character class `[a-z0-9]` of
`schema_builder.normalize`. -/
def isAlnumLower (c : Char) : Bool :=
  ('a' ≤ c && c ≤ 'z') || ('0' ≤ c && c ≤ '9')

/-- Scanner for `re.sub(r'[^a-z0-9]+', '_', s)`: `inRun` records whether the
previous character was part of a non-alphanumeric run (which has already
emitted its single underscore). -/
def collapseAux : Bool → List Char → List Char
  | _, [] => []
  | inRun, c :: cs =>
      if isAlnumLower c then c :: collapseAux false cs
      else if inRun then collapseAux true cs
      else '_' :: collapseAux true cs

/-- `re.sub(r'[^a-z0-9]+', '_', s)`: every maximal run of characters outside
`[a-z0-9]` becomes a single underscore. -/
def collapseRuns (l : List Char) : List Char :=
  collapseAux false l

/-- `s.strip('_')` on a character list. -/
def stripUnderscores (l : List Char) : List Char :=
  ((l.dropWhile (fun c => c = '_')).reverse.dropWhile (fun c => c = '_')).reverse

/-- `schema_builder.normalize`: lower-case, collapse non-alphanumeric runs to
`_`, strip leading/trailing `_`. -/
def normalize (col : String) : String :=
  ⟨stripUnderscores (collapseRuns (strLower col).data)⟩

/-- `schema_builder.build_schema`: normalize every column; a later column
silently overwrites an earlier one mapping to the same key. -/
def build_schema (df : DataFrame) : Schema :=
  df.cols.foldl (fun s c => dictInsert (normalize c) c s) []

/-! ## Generic list helpers used by the pandas model -/

/-- Insert into a sorted list, before the first element it compares `le` to
(stable for a non-strict `le`). -/
def insertLe (le : α → α → Bool) (x : α) : List α → List α
  | [] => [x]
  | y :: ys => if le x y then x :: y :: ys else y :: insertLe le x ys

/-- Stable insertion sort by a boolean comparison. -/
def sortByLe (le : α → α → Bool) : List α → List α
  | [] => []
  | x :: xs => insertLe le x (sortByLe le xs)

/-- Distinct elements keeping the first occurrence of each, in order, with an
accumulator of already-seen elements (`pandas.Series.unique`). -/
def uniqAux (seen : List Value) : List Value → List Value
  | [] => []
  | v :: vs => if v ∈ seen then uniqAux seen vs else v :: uniqAux (v :: seen) vs

/-- Distinct elements keeping the first occurrence of each, in order
(`pandas.Series.unique`). -/
def uniqFirst (vs : List Value) : List Value :=
  uniqAux [] vs

/-- Drop nulls (`pandas.Series.dropna`). -/
def nonNull (vs : List Value) : List Value :=
  vs.filter (fun v => v ≠ .vnull)

/-- Total order used to model pandas comparisons between cell values.
Homogeneous comparisons (number/number, string/string) follow the usual
orders; pandas raises on mixed-type comparisons, which no executed plan in
this development exercises, so the order is made total with numbers below
strings and null greatest (`na_position` handling is done separately). -/
def valueLe : Value → Value → Bool
  | .vnum a, .vnum b => decide (a ≤ b)
  | .vstr a, .vstr b => strLe a b
  | .vnum _, .vstr _ => true
  | .vstr _, .vnum _ => false
  | .vnull, .vnull => true
  | .vnull, _ => false
  | _, .vnull => true

/-- Floor of a rational, computed with flooring integer division (kept
kernel-reducible on concrete inputs). -/
def qFloor (q : ℚ) : ℤ :=
  Int.fdiv q.num q.den

/-- Python `round(x, 2)` (banker's rounding, i.e. round half to even),
modelled exactly on the rationals. -/
def round2 (q : ℚ) : ℚ :=
  let s := q * 100
  let f : ℤ := qFloor s
  let r := s - f
  let n : ℤ :=
    if r < 1/2 then f
    else if 1/2 < r then f + 1
    else if f % 2 = 0 then f else f + 1
  (n : ℚ) / 100

def qSum (qs : List ℚ) : ℚ := qs.foldl (· + ·) 0

def qMax : List ℚ → Option ℚ
  | [] => none
  | q :: qs => some (qs.foldl max q)

def qMin : List ℚ → Option ℚ
  | [] => none
  | q :: qs => some (qs.foldl min q)

def sMax : List String → Option String
  | [] => none
  | s :: ss => some (ss.foldl (fun a b => if strLe a b then b else a) s)

def sMin : List String → Option String
  | [] => none
  | s :: ss => some (ss.foldl (fun a b => if strLe a b then a else b) s)

def numOf : Value → Option ℚ
  | .vnum q => some q
  | _ => none

def strOf : Value → Option String
  | .vstr s => some s
  | _ => none

/-! ## Plan model (`models/core/planner.py` output, consumed by
`models/core/analytics_engine.py`) -/

/-- The aggregation kinds the engine's `op in ["sum","avg","max","min",
"count_unique"]` branch accepts. -/
inductive AggKind where
  | sum | avg | max | min | count_unique
deriving DecidableEq

/-- One plan step.  `sort`'s `by_` is optional because the Python dict may
lack the `"by"` key (only read on the DataFrame branch). -/
inductive Step where
  | filter (column : String) (value : Value)
  | groupby (column : String)
  | agg (kind : AggKind) (metric : String)
  | list_unique (metric : String)
  | sort (by_ : Option String) (order : String)
  | limit (count : Nat)
deriving DecidableEq

/-- A compiled plan: `{"type": ..., "steps": [...]}`. -/
structure Plan where
  ptype : String
  steps : List Step
deriving DecidableEq

/-! ## Analytics engine (`models/core/analytics_engine.py`) -/

/-- The engine's working value: a DataFrame, a DataFrameGroupBy (grouping
column plus the underlying rows), or a reduced Series mapping group key to
scalar. -/
inductive WR where
  | rows (rs : List Row)
  | grouped (col : String) (rs : List Row)
  | keyed (m : List (Value × Value))
deriving DecidableEq

/-- What `AnalyticsEngine.run` can return: `None` for non-analytics plans, a
scalar (early return), a value list (`list_unique`), `Series.to_dict`, a
record list, or the bare groupby object (the final `else: return df`). -/
inductive RunResult where
  | null : RunResult
  | scalar (v : Value)
  | vlist (vs : List Value)
  | mapping (m : List (Value × Value))
  | records (rs : List Row)
  | groupedRaw (col : String) (rs : List Row)
deriving DecidableEq

/-- `AnalyticsEngine._col`: resolve a semantic key through the schema or
raise `ValueError(f"Unknown column: {semantic}")`. -/
def colResolve (schema : Schema) (semantic : String) : Except String String :=
  match schema.lookup semantic with
  | none => .error ("Unknown column: " ++ semantic)
  | some raw => .ok raw

/-- `str(v)` as the engine's filter sees it (`astype(str)` /
`str(step["value"])`).  Exact float formatting is irrelevant here: no claim
exercises filtering on numeric values. -/
def pyStr : Value → String
  | .vstr s => s
  | .vnum q => toString q
  | .vnull => "nan"

/-- Aggregate a column of values the way pandas does for the engine's five
kinds: NaN is skipped, `sum` of an all-string column concatenates, `avg`
rounds half-to-even to 2 decimals, empty inputs give 0 for `sum` and NaN
otherwise, and `count_unique` counts distinct non-null values. -/
def aggValue (k : AggKind) (vs : List Value) : Except String Value :=
  let nn := nonNull vs
  match k with
  | .count_unique => .ok (.vnum ((uniqFirst nn).length : ℚ))
  | .sum =>
      match nn.mapM numOf with
      | some qs => .ok (.vnum (qSum qs))
      | none =>
          match nn.mapM strOf with
          | some ss => .ok (.vstr (String.join ss))
          | none => .error "TypeError: unsupported operand type(s) for +"
  | .avg =>
      match nn.mapM numOf with
      | some [] => .ok .vnull
      | some qs => .ok (.vnum (round2 (qSum qs / qs.length)))
      | none => .error "TypeError: could not convert to numeric"
  | .max =>
      match nn.mapM numOf with
      | some qs =>
          match qMax qs with
          | none => .ok .vnull
          | some q => .ok (.vnum q)
      | none =>
          match nn.mapM strOf with
          | some ss =>
              match sMax ss with
              | none => .ok .vnull
              | some s => .ok (.vstr s)
          | none => .error "TypeError: unorderable types"
  | .min =>
      match nn.mapM numOf with
      | some qs =>
          match qMin qs with
          | none => .ok .vnull
          | some q => .ok (.vnum q)
      | none =>
          match nn.mapM strOf with
          | some ss =>
              match sMin ss with
              | none => .ok .vnull
              | some s => .ok (.vstr s)
          | none => .error "TypeError: unorderable types"

/-- Group keys of `df.groupby(col)`: distinct non-null values of the
grouping column, sorted ascending (pandas groupby defaults `sort=True`,
`dropna=True`). -/
def groupKeys (rows : List Row) (col : String) : List Value :=
  sortByLe valueLe (uniqFirst (nonNull (colValues rows col)))

/-- The rows of one group, in original order. -/
def groupRows (rows : List Row) (col : String) (key : Value) : List Row :=
  rows.filter (fun r => getCol r col = key)

/-- Series label lookup `series[label]` where the index holds group-key
values and the label is a raw column-name string. -/
def lookupVal (m : List (Value × Value)) (label : String) : Option Value :=
  (m.find? (fun p => p.1 = .vstr label)).map (fun p => p.2)

/-- `DataFrame.sort_values(by=col, ascending=asc)`: rows whose key is null
go last regardless of direction (`na_position='last'`). -/
def sortRows (rs : List Row) (col : String) (asc : Bool) : List Row :=
  let keyed := rs.filter (fun r => getCol r col ≠ .vnull)
  let nulls := rs.filter (fun r => getCol r col = .vnull)
  sortByLe
    (fun a b =>
      if asc then valueLe (getCol a col) (getCol b col)
      else valueLe (getCol b col) (getCol a col))
    keyed ++ nulls

/-- `Series.sort_values(ascending=asc)` on the reduced relation. -/
def sortKeyed (m : List (Value × Value)) (asc : Bool) : List (Value × Value) :=
  let keyed := m.filter (fun p => p.2 ≠ .vnull)
  let nulls := m.filter (fun p => p.2 = .vnull)
  sortByLe
    (fun a b => if asc then valueLe a.2 b.2 else valueLe b.2 a.2)
    keyed ++ nulls

/-- `DataFrameGroupBy.head(n)`: the first `n` rows of every group, in
original row order (rows with a null group key belong to no group). -/
def limitGroupedAux (col : String) (n : Nat) : List Row → List Row → List Row
  | _, [] => []
  | prev, r :: rest =>
      let k := getCol r col
      if k = .vnull then limitGroupedAux col n (prev ++ [r]) rest
      else if (prev.filter (fun r' => getCol r' col = k)).length < n then
        r :: limitGroupedAux col n (prev ++ [r]) rest
      else limitGroupedAux col n (prev ++ [r]) rest

/-- The final conversion of the loop's value (`Series.to_dict`, DataFrame →
records, otherwise the raw object). -/
def finalize : WR → RunResult
  | .keyed m => .mapping m
  | .rows rs => .records rs
  | .grouped col rs => .groupedRaw col rs

set_option linter.unusedVariables false in
/-- The body of `AnalyticsEngine.run`'s step loop, folded over the working
value.  Early `return` statements of the source surface as `.ok` results
that ignore the remaining steps.  Where the source would make pandas raise
(filtering or grouping a non-DataFrame, `sort_values`/`dropna` on a groupby
object, label lookup on a Series), the model returns the corresponding
error. -/
def runSteps (schema : Schema) : WR → List Step → Except String RunResult
  | wr, [] => .ok (finalize wr)
  | wr, .filter c v :: rest =>
      match colResolve schema c with
      | .error e => .error e
      | .ok col =>
          match wr with
          | .rows rs =>
              let val := strLower (pyStr v)
              runSteps schema
                (.rows (rs.filter (fun r => strLower (pyStr (getCol r col)) = val))) rest
          | _ => .error "TypeError: cannot filter a grouped or reduced relation"
  | wr, .groupby c :: rest =>
      match colResolve schema c with
      | .error e => .error e
      | .ok col =>
          match wr with
          | .rows rs => runSteps schema (.grouped col rs) rest
          | _ => .error "AttributeError: groupby"
  | wr, .agg k met :: rest =>
      match colResolve schema met with
      | .error e => .error e
      | .ok col =>
          match wr with
          | .grouped gcol rs =>
              match (groupKeys rs gcol).mapM
                  (fun key => (aggValue k (colValues (groupRows rs gcol key) col)).map
                    (fun v => (key, v))) with
              | .error e => .error e
              | .ok entries => runSteps schema (.keyed entries) rest
          | .rows rs => (aggValue k (colValues rs col)).map .scalar
          | .keyed m =>
              match lookupVal m col with
              | none => .error ("KeyError: " ++ col)
              | some v =>
                  match k, v with
                  | .count_unique, _ => .error "AttributeError: nunique"
                  | .avg, .vnum q => .ok (.scalar (.vnum (round2 q)))
                  | _, .vnum q => .ok (.scalar (.vnum q))
                  | _, _ => .error "AttributeError: aggregate of non-numeric scalar"
  | wr, .list_unique met :: rest =>
      match colResolve schema met with
      | .error e => .error e
      | .ok col =>
          match wr with
          | .rows rs => .ok (.vlist (uniqFirst (nonNull (colValues rs col))))
          | .grouped _ _ => .error "AttributeError: dropna"
          | .keyed m =>
              match lookupVal m col with
              | none => .error ("KeyError: " ++ col)
              | some _ => .error "AttributeError: dropna"
  | wr, .sort b o :: rest =>
      let asc := o == "asc"
      match wr with
      | .keyed m => runSteps schema (.keyed (sortKeyed m asc)) rest
      | .rows rs =>
          match b with
          | none => .error "KeyError: 'by'"
          | some bcol =>
              match colResolve schema bcol with
              | .error e => .error e
              | .ok col => runSteps schema (.rows (sortRows rs col asc)) rest
      | .grouped _ _ =>
          match b with
          | none => .error "KeyError: 'by'"
          | some bcol =>
              match colResolve schema bcol with
              | .error e => .error e
              | .ok _ => .error "AttributeError: sort_values"
  | wr, .limit n :: rest =>
      match wr with
      | .rows rs => runSteps schema (.rows (rs.take n)) rest
      | .keyed m => runSteps schema (.keyed (m.take n)) rest
      | .grouped gcol rs =>
          runSteps schema (.rows (limitGroupedAux gcol n [] rs)) rest

/-- The engine object: the stored dataset and schema. -/
structure AnalyticsEngine where
  df : DataFrame
  schema : Schema
deriving DecidableEq

/-- `AnalyticsEngine.run`: `None` unless the plan's type is `"analytics"`,
otherwise fold the steps over a copy of the stored DataFrame. -/
def AnalyticsEngine.run (e : AnalyticsEngine) (p : Plan) : Except String RunResult :=
  if p.ptype ≠ "analytics" then .ok .null
  else runSteps e.schema (.rows e.df.rows) p.steps

/-- `run` as a state transformer on the engine: the method assigns nothing
to `self` (it works on `self.df.copy()`), so the resulting engine is the
input engine. -/
def AnalyticsEngine.runState (e : AnalyticsEngine) (p : Plan) :
    Except String RunResult × AnalyticsEngine :=
  (e.run p, e)

/-- Does a step's resolved field reference the given semantic key?  (`sort`'s
`by_` is only read on row relations; `limit` references no key.) -/
def stepRefs : Step → String → Prop
  | .filter c _, key => c = key
  | .groupby c, key => c = key
  | .agg _ m, key => m = key
  | .list_unique m, key => m = key
  | .sort b _, key => b = some key
  | .limit _, _ => False

/-! ## Concrete fixture: the dataset of spec §8's worked example -/

/-- Rows `[(North,100),(South,150),(North,20)]` with columns Region/Sales. -/
def dfNS : DataFrame :=
  { cols := ["Region", "Sales"],
    rows := [
      [("Region", .vstr "North"), ("Sales", .vnum 100)],
      [("Region", .vstr "South"), ("Sales", .vnum 150)],
      [("Region", .vstr "North"), ("Sales", .vnum 20)]] }

/-- Schema of `dfNS` as `build_schema` produces it. -/
def schemaNS : Schema := [("region", "Region"), ("sales", "Sales")]

/-- Engine over the worked-example dataset. -/
def engineNS : AnalyticsEngine := { df := dfNS, schema := schemaNS }

/-! ## Theorems about the analytics engine -/

/-- C1: running an analytics plan whose first step aggregates (sum, avg,
max, min or count_unique) over the initial row relation returns exactly the
scalar aggregate of the resolved metric column, for every choice of later
steps — the pipeline short-circuits and the remaining steps are never
executed. -/
theorem c1_aggregate_rows_short_circuits
    (e : AnalyticsEngine) (k : AggKind) (met raw : String) (rest : List Step) (v : Value)
    (hcol : e.schema.lookup met = some raw)
    (hagg : aggValue k (colValues e.df.rows raw) = .ok v) :
    e.run ⟨"analytics", .agg k met :: rest⟩ = .ok (.scalar v) := by
  simp [AnalyticsEngine.run, runSteps, colResolve, hcol, hagg, Except.map]

unseal Rat.add Rat.mul Rat.inv Rat.sub in
/-- Witness for C1: summing the Sales column returns 270 and ignores the
trailing limit and sort steps. -/
theorem c1_witness :
    engineNS.schema.lookup "sales" = some "Sales" ∧
    aggValue .sum (colValues engineNS.df.rows "Sales") = .ok (.vnum 270) ∧
    engineNS.run ⟨"analytics", [.agg .sum "sales", .limit 1, .sort (some "region") "asc"]⟩
      = .ok (.scalar (.vnum 270)) :=
  ⟨by decide, by decide,
    c1_aggregate_rows_short_circuits engineNS .sum "sales" "Sales" _ _ (by decide) (by decide)⟩

unseal Rat.add Rat.mul Rat.inv Rat.sub in
/-- C2: `groupby region → aggregate sum sales → sort desc → limit 1` over
rows (North,100),(South,150),(North,20) yields the mapping South ↦ 150. -/
theorem c2_groupby_sum_sort_limit :
    engineNS.run ⟨"analytics",
      [.groupby "region", .agg .sum "sales", .sort none "desc", .limit 1]⟩
      = .ok (.mapping [(.vstr "South", .vnum 150)]) := by decide

unseal Rat.add Rat.mul Rat.inv Rat.sub in
/-- C3 counterexample: aggregating an already-reduced (Keyed) relation does
not fail with "cannot aggregate an already-reduced relation"; the source
indexes the reduced Series by the raw column name, which raises a KeyError
instead. -/
theorem c3_counterexample :
    engineNS.run ⟨"analytics",
      [.groupby "region", .agg .sum "sales", .agg .sum "sales"]⟩
      = .error "KeyError: Sales" ∧
    ("KeyError: Sales" : String) ≠ "cannot aggregate an already-reduced relation" := by
  constructor
  · decide
  · decide

/-- C3 amended: aggregating a Keyed relation whose group keys do not contain
the metric's raw column name fails with a KeyError naming that raw column
(the error is surfaced, but its message is a key-lookup failure, not the
message the claim states). -/
theorem c3_amended_keyed_aggregate_key_error
    (schema : Schema) (m : List (Value × Value)) (k : AggKind) (met raw : String)
    (rest : List Step)
    (hcol : schema.lookup met = some raw) (hmiss : lookupVal m raw = none) :
    runSteps schema (.keyed m) (.agg k met :: rest) = .error ("KeyError: " ++ raw) := by
  simp [runSteps, colResolve, hcol, hmiss]

/-- Witness for the amended C3 at the worked-example reduced relation. -/
theorem c3_amended_witness :
    schemaNS.lookup "sales" = some "Sales" ∧
    lookupVal [(.vstr "North", .vnum 120), (.vstr "South", .vnum 150)] "Sales" = none ∧
    runSteps schemaNS (.keyed [(.vstr "North", .vnum 120), (.vstr "South", .vnum 150)])
      [.agg .sum "sales"] = .error ("KeyError: " ++ "Sales") :=
  ⟨by decide, by decide,
    c3_amended_keyed_aggregate_key_error schemaNS _ .sum "sales" "Sales" []
      (by decide) (by decide)⟩

unseal Rat.add Rat.mul Rat.inv Rat.sub in
/-- C4 counterexample: `list_unique` on a Keyed relation does not return the
distinct non-null column values — it raises a KeyError, because the source
indexes the reduced Series by the raw column name. -/
theorem c4_counterexample :
    engineNS.run ⟨"analytics",
      [.groupby "region", .agg .sum "sales", .list_unique "sales", .limit 5]⟩
      = .error "KeyError: Sales" ∧
    engineNS.run ⟨"analytics",
      [.groupby "region", .agg .sum "sales", .list_unique "sales", .limit 5]⟩
      ≠ .ok (.vlist (uniqFirst (nonNull (colValues dfNS.rows "Sales")))) := by
  constructor
  · decide
  · decide

/-- C4 amended: on a row relation, `list_unique` returns the distinct
non-null values of the resolved column in original order and terminates the
pipeline immediately — any later steps have no effect.  (On Grouped and
Keyed relations the source raises instead.) -/
theorem c4_amended_list_unique_rows_short_circuits
    (schema : Schema) (rs : List Row) (met raw : String) (rest : List Step)
    (hcol : schema.lookup met = some raw) :
    runSteps schema (.rows rs) (.list_unique met :: rest)
      = .ok (.vlist (uniqFirst (nonNull (colValues rs raw)))) := by
  simp [runSteps, colResolve, hcol]

/-- Witness for the amended C4: distinct regions, with a limit and a sort
appended after `list_unique` having no effect. -/
theorem c4_amended_witness :
    schemaNS.lookup "region" = some "Region" ∧
    runSteps schemaNS (.rows dfNS.rows)
      [.list_unique "region", .limit 1, .sort none "desc"]
      = .ok (.vlist (uniqFirst (nonNull (colValues dfNS.rows "Region")))) :=
  ⟨by decide,
    c4_amended_list_unique_rows_short_circuits schemaNS dfNS.rows "region" "Region"
      [.limit 1, .sort none "desc"] (by decide)⟩

unseal Rat.add Rat.mul Rat.inv Rat.sub in
/-- C5 counterexample: a plan may contain a step referencing a semantic key
absent from the schema and still complete without any error — an aggregate
over rows short-circuits before the offending step is reached. -/
theorem c5_counterexample :
    engineNS.runState ⟨"analytics", [.agg .sum "sales", .filter "bogus" (.vstr "x")]⟩
      = (.ok (.scalar (.vnum 270)), engineNS) := by decide

/-- C5 amended: if the first executed step resolves a semantic key that is
absent from the schema (filter/groupby column, aggregate or list_unique
metric, or sort-by on the row relation), the run raises the unknown-column
CompilationError and the engine's stored dataset is left unmodified. -/
theorem c5_amended_unknown_column_first_step
    (e : AnalyticsEngine) (key : String) (s : Step) (rest : List Step)
    (href : stepRefs s key) (hmiss : e.schema.lookup key = none) :
    e.runState ⟨"analytics", s :: rest⟩ = (.error ("Unknown column: " ++ key), e) := by
  cases s with
  | filter c v =>
      obtain rfl : c = key := href
      simp [AnalyticsEngine.runState, AnalyticsEngine.run, runSteps, colResolve, hmiss]
  | groupby c =>
      obtain rfl : c = key := href
      simp [AnalyticsEngine.runState, AnalyticsEngine.run, runSteps, colResolve, hmiss]
  | agg k m =>
      obtain rfl : m = key := href
      simp [AnalyticsEngine.runState, AnalyticsEngine.run, runSteps, colResolve, hmiss]
  | list_unique m =>
      obtain rfl : m = key := href
      simp [AnalyticsEngine.runState, AnalyticsEngine.run, runSteps, colResolve, hmiss]
  | sort b o =>
      obtain rfl : b = some key := href
      simp [AnalyticsEngine.runState, AnalyticsEngine.run, runSteps, colResolve, hmiss]
  | limit n => exact href.elim

/-- Witness for the amended C5: grouping by an unknown key fails with the
unknown-column error and the engine state is unchanged. -/
theorem c5_amended_witness :
    stepRefs (.groupby "bogus") "bogus" ∧
    engineNS.schema.lookup "bogus" = none ∧
    engineNS.runState ⟨"analytics", [.groupby "bogus", .limit 1]⟩
      = (.error ("Unknown column: " ++ "bogus"), engineNS) :=
  ⟨rfl, by decide,
    c5_amended_unknown_column_first_step engineNS "bogus" (.groupby "bogus") [.limit 1]
      rfl (by decide)⟩

/-- C10: a sort step treats every order string other than exactly "asc" as
descending — on both the row relation (with a resolvable by-column) and the
reduced Keyed relation, running with an arbitrary non-"asc" order is the
same as running with "desc", and the order value itself never causes an
error. -/
theorem c10_sort_order_fallback_desc
    (schema : Schema) (o : String) (ho : o ≠ "asc")
    (m : List (Value × Value)) (b : Option String)
    (rs : List Row) (bcol : String) (rest rest' : List Step) :
    runSteps schema (.keyed m) (.sort b o :: rest)
      = runSteps schema (.keyed m) (.sort b "desc" :: rest) ∧
    runSteps schema (.rows rs) (.sort (some bcol) o :: rest')
      = runSteps schema (.rows rs) (.sort (some bcol) "desc" :: rest') := by
  have hbeq : (o == "asc") = false := beq_eq_false_iff_ne.mpr ho
  have hdesc : (("desc" : String) == "asc") = false := by decide
  constructor
  · simp [runSteps, hbeq, hdesc]
  · simp [runSteps, hbeq, hdesc]

/-- Witness for C10 with the misspelled order "Descending". -/
theorem c10_witness :
    ("Descending" : String) ≠ "asc" ∧
    (runSteps schemaNS (.keyed [(.vstr "South", .vnum 150)]) [.sort none "Descending"]
       = runSteps schemaNS (.keyed [(.vstr "South", .vnum 150)]) [.sort none "desc"] ∧
     runSteps schemaNS (.rows dfNS.rows) [.sort (some "sales") "Descending"]
       = runSteps schemaNS (.rows dfNS.rows) [.sort (some "sales") "desc"]) :=
  ⟨by decide,
    c10_sort_order_fallback_desc schemaNS "Descending" (by decide)
      [(.vstr "South", .vnum 150)] none dfNS.rows "sales" [] []⟩

/-! ## Vector store (`models/rag/vectorstore.py`) -/

/-- The store after `__init__`: the parallel lists of source texts and
stored embedding vectors (vector components as rationals). -/
structure VectorStore where
  texts : List String
  embs : List (List ℚ)
deriving DecidableEq

/-- `VectorStore.__init__`: reads the dimension from `embeddings[0]` — an
IndexError on empty input — then adds the matrix to a flat L2 faiss index,
which requires every vector to have that dimension. -/
def mkVectorStore (embeddings : List (List ℚ)) (texts : List String) :
    Except String VectorStore :=
  match embeddings with
  | [] => .error "IndexError: list index out of range"
  | e :: es =>
      if (e :: es).all (fun v => v.length == e.length) then
        .ok { texts := texts, embs := e :: es }
      else .error "ValueError: ragged embedding matrix"

/-- Squared Euclidean distance (faiss `IndexFlatL2` metric). -/
def sqDist (a b : List ℚ) : ℚ :=
  qSum ((a.zip b).map (fun p => (p.1 - p.2) * (p.1 - p.2)))

/-- The stored labels paired with their squared distance to the query. -/
def distPairs (vs : VectorStore) (q : List ℚ) : List (Nat × ℚ) :=
  (List.range vs.embs.length).zip (vs.embs.map (fun e => sqDist q e))

/-- The distance table sorted by ascending distance (equal distances keep
the lower label first). -/
def sortedPairs (vs : VectorStore) (q : List ℚ) : List (Nat × ℚ) :=
  sortByLe (fun a b => decide (a.2 ≤ b.2)) (distPairs vs q)

/-- The label row of `faiss.IndexFlatL2.search`: the `k` nearest labels in
ascending-distance order; when the index holds fewer than `k` vectors the
row is padded with label `-1`, the faiss convention for missing
neighbors. -/
def faissSearchLabels (vs : VectorStore) (q : List ℚ) (k : Nat) : List Int :=
  ((sortedPairs vs q).map (fun p => (p.1 : Int))).take k
    ++ List.replicate (k - vs.embs.length) (-1)

/-- Python list indexing `texts[i]`: a negative index counts from the end;
out of range raises IndexError. -/
def pyIndex (ts : List String) (i : Int) : Except String String :=
  let j := if i < 0 then i + ts.length else i
  if h : 0 ≤ j ∧ j.toNat < ts.length then .ok (ts.get ⟨j.toNat, h.2⟩)
  else .error "IndexError: list index out of range"

/-- A Python list comprehension over a fallible element expression: the
first failure aborts the whole comprehension. -/
def exceptMapM {E α β : Type} (f : α → Except E β) : List α → Except E (List β)
  | [] => .ok []
  | a :: l =>
      match f a with
      | .error e => .error e
      | .ok b =>
          match exceptMapM f l with
          | .error e => .error e
          | .ok bs => .ok (b :: bs)

/-- `VectorStore.search`: run the faiss search and map every returned label
through Python indexing of `self.texts`
(`[self.texts[i] for i in I[0]]`). -/
def VectorStore.search (vs : VectorStore) (q : List ℚ) (k : Nat) :
    Except String (List String) :=
  exceptMapM (pyIndex vs.texts) (faissSearchLabels vs q k)

/-- All stored texts in the search's ascending-distance order. -/
def searchAllTexts (vs : VectorStore) (q : List ℚ) : List String :=
  (sortedPairs vs q).map (fun p => vs.texts.getD p.1 "")

/-- A concrete two-element store. -/
def vsAB : VectorStore := { texts := ["a", "b"], embs := [[0], [1]] }

/-! Permutation and `mapM` helpers for the vector-store proofs. -/

theorem insertLe_perm (le : α → α → Bool) (x : α) (l : List α) :
    (insertLe le x l).Perm (x :: l) := by
  induction l with
  | nil => simp [insertLe]
  | cons y ys ih =>
      simp only [insertLe]
      split
      · exact .refl _
      · exact (ih.cons y).trans (List.Perm.swap x y ys)

theorem sortByLe_perm (le : α → α → Bool) (l : List α) :
    (sortByLe le l).Perm l := by
  induction l with
  | nil => exact .refl _
  | cons x xs ih => exact (insertLe_perm le x (sortByLe le xs)).trans (ih.cons x)

theorem exceptMapM_ok_of_forall {E α β : Type} (f : α → Except E β) (g : α → β) :
    ∀ l : List α, (∀ a ∈ l, f a = .ok (g a)) → exceptMapM f l = .ok (l.map g) := by
  intro l
  induction l with
  | nil => intro _; rfl
  | cons a l ih =>
      intro h
      have ha := h a (by simp)
      have hl := ih (fun b hb => h b (by simp [hb]))
      simp [exceptMapM, ha, hl]

theorem exceptMapM_append_ok {E α β : Type} (f : α → Except E β) (l₁ l₂ : List α)
    (r₁ r₂ : List β)
    (h₁ : exceptMapM f l₁ = .ok r₁) (h₂ : exceptMapM f l₂ = .ok r₂) :
    exceptMapM f (l₁ ++ l₂) = .ok (r₁ ++ r₂) := by
  induction l₁ generalizing r₁ with
  | nil =>
      simp only [exceptMapM] at h₁
      cases h₁
      simpa using h₂
  | cons a l ih =>
      simp only [exceptMapM] at h₁ ⊢
      cases hfa : f a with
      | error e => simp [hfa] at h₁
      | ok b =>
          simp only [hfa] at h₁ ⊢
          cases hml : exceptMapM f l with
          | error e => simp [hml] at h₁
          | ok bs =>
              simp only [hml] at h₁
              cases h₁
              simp [ih bs hml]

theorem getD_range_map (l : List String) :
    (List.range l.length).map (fun i => l.getD i "") = l := by
  induction l with
  | nil => rfl
  | cons x xs ih =>
      rw [List.length_cons, List.range_succ_eq_map]
      simp only [List.map_cons, List.map_map, Function.comp]
      have hshift : ((fun i => (x :: xs).getD i "") ∘ Nat.succ)
          = (fun i => xs.getD i "") := by
        funext i
        simp [List.getD]
      rw [hshift, ih]
      simp [List.getD]

theorem mem_sortedPairs_lt (vs : VectorStore) (q : List ℚ) (p : Nat × ℚ)
    (hp : p ∈ sortedPairs vs q) : p.1 < vs.embs.length := by
  have hd : p ∈ distPairs vs q :=
    ((sortByLe_perm _ _).mem_iff).1 hp
  obtain ⟨i, d⟩ := p
  have := (List.of_mem_zip hd).1
  simpa using this

/-- C9 counterexample: constructing a VectorStore from empty parallel
sequences does not yield an empty store — reading the dimension from
`embeddings[0]` raises an IndexError. -/
theorem c9_counterexample :
    mkVectorStore [] [] = .error "IndexError: list index out of range" ∧
    mkVectorStore [] [] ≠ .ok { texts := [], embs := [] } := by
  constructor
  · rfl
  · decide

/-- C9 amended: construction requires at least one embedding (the index
dimension is read from the first); any nonempty matrix of equal-length
vectors, with any parallel text list, yields the store holding exactly
those pairs. -/
theorem c9_amended_nonempty_construction
    (e : List ℚ) (es : List (List ℚ)) (ts : List String)
    (hdim : (e :: es).all (fun v => v.length == e.length) = true) :
    mkVectorStore (e :: es) ts = .ok { texts := ts, embs := e :: es } := by
  simp [mkVectorStore, hdim]

/-- Witness for the amended C9 at a concrete two-vector store. -/
theorem c9_amended_witness :
    (([0] : List ℚ) :: [[1]]).all (fun v => v.length == ([0] : List ℚ).length) = true ∧
    mkVectorStore [[0], [1]] ["a", "b"] = .ok vsAB :=
  ⟨by decide, c9_amended_nonempty_construction [0] [[1]] ["a", "b"] (by decide)⟩

unseal Rat.add Rat.mul Rat.inv Rat.sub in
/-- C6 counterexample: with 2 stored texts and k = 5 (the caller default),
search returns 5 texts — the two stored ones in ascending distance order
followed by three copies of the last text (faiss pads missing neighbors
with label −1, which Python list indexing resolves to the last element) —
not "exactly the n stored texts". -/
theorem c6_counterexample :
    vsAB.search [0] 5 = .ok ["a", "b", "b", "b", "b"] ∧
    vsAB.search [0] 5 ≠ .ok ["a", "b"] := by
  constructor
  · decide
  · decide

/-- C6 amended: for a well-formed nonempty store and `k ≥ n`, search
returns all n stored texts in ascending-distance order (a permutation of
the stored texts) followed by `k − n` copies of the last stored text. -/
theorem c6_amended_search_overfetch
    (vs : VectorStore) (q : List ℚ) (k : Nat)
    (hne : vs.embs ≠ []) (hlen : vs.texts.length = vs.embs.length)
    (hk : vs.embs.length ≤ k) :
    vs.search q k
      = .ok (searchAllTexts vs q
          ++ List.replicate (k - vs.embs.length)
              (vs.texts.getD (vs.texts.length - 1) ""))
    ∧ (searchAllTexts vs q).Perm vs.texts := by
  have hdlen : (distPairs vs q).length = vs.embs.length := by
    simp [distPairs]
  have hslen : (sortedPairs vs q).length = vs.embs.length :=
    ((sortByLe_perm _ _).length_eq).trans hdlen
  have htlen : 0 < vs.texts.length := by
    rw [hlen]
    exact List.length_pos.2 hne
  have h1 : exceptMapM (pyIndex vs.texts)
      ((sortedPairs vs q).map (fun p => (p.1 : Int)))
      = .ok (searchAllTexts vs q) := by
    have hfa : ∀ i ∈ (sortedPairs vs q).map (fun p => (p.1 : Int)),
        pyIndex vs.texts i = .ok (vs.texts.getD i.toNat "") := by
      intro i hi
      obtain ⟨p, hp, rfl⟩ := List.mem_map.1 hi
      have hlt : p.1 < vs.texts.length := by
        rw [hlen]
        exact mem_sortedPairs_lt vs q p hp
      have hnotneg : ¬ ((p.1 : Int) < 0) := by omega
      have hcond : 0 ≤ ((p.1 : Int)) ∧ ((p.1 : Int)).toNat < vs.texts.length := by
        omega
      simp only [pyIndex, if_neg hnotneg, dif_pos hcond]
      congr 1
      rw [List.getD_eq_getElem?_getD, List.getElem?_eq_getElem (by omega)]
      simp [List.get_eq_getElem]
    have hmm := exceptMapM_ok_of_forall (pyIndex vs.texts)
      (fun i : Int => vs.texts.getD i.toNat "") _ hfa
    rw [hmm]
    congr 1
    rw [List.map_map]
    simp only [searchAllTexts]
    apply List.map_congr_left
    intro p _
    simp [Function.comp]
  have h2 : exceptMapM (pyIndex vs.texts)
      (List.replicate (k - vs.embs.length) (-1 : Int))
      = .ok (List.replicate (k - vs.embs.length)
          (vs.texts.getD (vs.texts.length - 1) "")) := by
    have hminus : pyIndex vs.texts (-1)
        = .ok (vs.texts.getD (vs.texts.length - 1) "") := by
      have hneg : ((-1 : Int) < 0) := by omega
      have hcond : (0 : Int) ≤ -1 + vs.texts.length ∧
          ((-1 : Int) + vs.texts.length).toNat < vs.texts.length := by
        omega
      simp only [pyIndex, if_pos hneg, dif_pos hcond]
      have hidx : ((-1 : Int) + vs.texts.length).toNat = vs.texts.length - 1 := by
        omega
      congr 1
      rw [List.getD_eq_getElem?_getD, List.getElem?_eq_getElem (by omega)]
      simp [List.get_eq_getElem, hidx]
    have hfa : ∀ i ∈ List.replicate (k - vs.embs.length) (-1 : Int),
        pyIndex vs.texts i = .ok (vs.texts.getD (vs.texts.length - 1) "") := by
      intro i hi
      rw [List.eq_of_mem_replicate hi]
      exact hminus
    have hmm := exceptMapM_ok_of_forall (pyIndex vs.texts)
      (fun _ : Int => vs.texts.getD (vs.texts.length - 1) "") _ hfa
    rw [hmm, List.map_replicate]
  have htake : ((sortedPairs vs q).map (fun p => (p.1 : Int))).take k
      = (sortedPairs vs q).map (fun p => (p.1 : Int)) :=
    List.take_of_length_le (by simp [hslen, hk])
  constructor
  · rw [VectorStore.search, faissSearchLabels, htake]
    exact exceptMapM_append_ok _ _ _ _ _ h1 h2
  · have hperm1 : (searchAllTexts vs q).Perm
        ((distPairs vs q).map (fun p => vs.texts.getD p.1 "")) :=
      (sortByLe_perm _ _).map _
    have heq : (distPairs vs q).map (fun p => vs.texts.getD p.1 "") = vs.texts := by
      have hfst : (distPairs vs q).map Prod.fst = List.range vs.embs.length := by
        apply List.map_fst_zip
        simp
      calc (distPairs vs q).map (fun p => vs.texts.getD p.1 "")
          = ((distPairs vs q).map Prod.fst).map (fun i => vs.texts.getD i "") := by
            rw [List.map_map]
            rfl
        _ = (List.range vs.embs.length).map (fun i => vs.texts.getD i "") := by
            rw [hfst]
        _ = vs.texts := by
            rw [← hlen]
            exact getD_range_map vs.texts
    exact heq ▸ hperm1

/-- Witness for the amended C6: overfetching `k = 5` from the two-element
store returns both texts then three copies of the last one, and the ordered
prefix is a permutation of the stored texts. -/
theorem c6_amended_witness :
    vsAB.embs ≠ [] ∧ vsAB.texts.length = vsAB.embs.length ∧ vsAB.embs.length ≤ 5 ∧
    (vsAB.search [0] 5
        = .ok (searchAllTexts vsAB [0]
            ++ List.replicate (5 - vsAB.embs.length)
                (vsAB.texts.getD (vsAB.texts.length - 1) ""))
      ∧ (searchAllTexts vsAB [0]).Perm vsAB.texts) :=
  ⟨by decide, by decide, by decide,
    c6_amended_search_overfetch vsAB [0] 5 (by decide) (by decide) (by decide)⟩

/-! ## Planner response parsing (`models/core/planner.py`)

The planner's `plan` method sends a prompt to the external LLM, strips the
response, deletes the Markdown fence markers, strips again, and parses the
remainder as JSON, falling back to `{"type": "explain"}` on any parse
failure.  The LLM call and `json.loads` are external collaborators, passed
in as the raw response and a parser function `J`. -/

/-- Python whitespace test (the default character class of `str.strip`). -/
def pySpace (c : Char) : Bool :=
  c == ' ' || c == '\t' || c == '\n' || c == '\r' || c == '\x0b' || c == '\x0c'

/-- Leading-whitespace removal (the left half of Python `strip`). -/
def stripStart (s : List Char) : List Char :=
  s.dropWhile pySpace

/-- Trailing-whitespace removal (the right half of Python `strip`). -/
def stripEnd (s : List Char) : List Char :=
  (s.reverse.dropWhile pySpace).reverse

/-- Python `s.strip()`. -/
def pyStrip (s : List Char) : List Char :=
  stripStart (stripEnd s)

set_option linter.unusedVariables false in
/-- Python `s.replace(pat, "")` for a nonempty pattern: scan left to right
deleting every (non-overlapping) occurrence.  (An empty pattern leaves the
string unchanged here; the source only ever deletes the two nonempty fence
markers.) -/
def replDel (pat : List Char) : List Char → List Char
  | [] => []
  | c :: cs =>
      if h : pat ≠ [] ∧ pat.isPrefixOf (c :: cs) then
        replDel pat ((c :: cs).drop pat.length)
      else c :: replDel pat cs
termination_by s => s.length
decreasing_by
  all_goals simp_wf
  all_goals
    first
      | omega
      | · have hp : 0 < pat.length := List.length_pos.2 h.1
          omega

/-- The fence marker `"```json"`. -/
def fenceJson : List Char := "```json".data

/-- The fence marker `"```"`. -/
def fenceBare : List Char := "```".data

/-- The planner's parse preprocessing: `response.strip()`, deletion of
`"```json"` then `"```"`, and a final `strip()`. -/
def preprocess (resp : List Char) : List Char :=
  pyStrip (replDel fenceBare (replDel fenceJson (pyStrip resp)))

/-- A response wrapped in a Markdown code fence. -/
def wrapFence (resp : List Char) : List Char :=
  "```json\n".data ++ resp ++ "\n```".data

/-- `Planner.plan`'s response handling: preprocess, then parse with the
external structured parser `J`; any parse failure falls back to the explain
plan instead of raising. -/
def plannerParse (J : List Char → Option Plan) (response : List Char) : Plan :=
  match J (preprocess response) with
  | some p => p
  | none => { ptype := "explain", steps := [] }

/-! String-rewriting lemmas for the fence-stripping proof. -/

theorem prefix_append_cons_iff {pat l ys : List Char} {c : Char} (hc : c ∉ pat) :
    pat <+: (l ++ c :: ys) ↔ pat <+: l := by
  constructor
  · rintro ⟨t, ht⟩
    rcases le_or_lt pat.length l.length with hle | hlt
    · have h1 : pat = (l ++ c :: ys).take pat.length := by
        rw [← ht]
        exact (List.take_left pat t).symm
      rw [List.take_append_of_le_length hle] at h1
      rw [h1]
      exact List.take_prefix _ _
    · exfalso
      have h1 : (l ++ c :: ys)[l.length]? = some c := by
        rw [List.getElem?_append_right (Nat.le_refl _)]
        simp
      rw [← ht, List.getElem?_append_left hlt] at h1
      exact hc (List.getElem?_mem h1)
  · intro h
    exact h.trans (List.prefix_append l (c :: ys))

theorem replDel_nil (pat : List Char) : replDel pat [] = [] := by
  simp [replDel]

theorem replDel_cons_eq (pat : List Char) (c : Char) (cs : List Char) :
    replDel pat (c :: cs) =
      if pat ≠ [] ∧ pat.isPrefixOf (c :: cs) then
        replDel pat ((c :: cs).drop pat.length)
      else c :: replDel pat cs := by
  rw [replDel]
  rw [dite_eq_ite]

theorem replDel_append_cons (pat : List Char) (c : Char) (hc : c ∉ pat) :
    ∀ (n : Nat) (xs ys : List Char), xs.length ≤ n →
      replDel pat (xs ++ c :: ys) = replDel pat xs ++ c :: replDel pat ys := by
  intro n
  induction n with
  | zero =>
      intro xs ys hlen
      have hxs : xs = [] := List.eq_nil_of_length_eq_zero (Nat.le_zero.1 hlen)
      subst hxs
      simp only [List.nil_append]
      rw [replDel_cons_eq, if_neg, replDel_nil, List.nil_append]
      rintro ⟨hne, hpre⟩
      obtain ⟨t, ht⟩ := List.isPrefixOf_iff_prefix.1 hpre
      obtain ⟨p, ps, rfl⟩ : ∃ p ps, pat = p :: ps := by
        cases pat with
        | nil => exact absurd rfl hne
        | cons p ps => exact ⟨p, ps, rfl⟩
      have hpc : p = c := by
        have := congrArg (fun l => l.head?) ht
        simpa using this
      exact hc (hpc ▸ List.mem_cons_self p ps)
  | succ n ih =>
      intro xs ys hlen
      cases xs with
      | nil =>
          simp only [List.nil_append]
          rw [replDel_cons_eq, if_neg, replDel_nil, List.nil_append]
          rintro ⟨hne, hpre⟩
          obtain ⟨t, ht⟩ := List.isPrefixOf_iff_prefix.1 hpre
          obtain ⟨p, ps, rfl⟩ : ∃ p ps, pat = p :: ps := by
            cases pat with
            | nil => exact absurd rfl hne
            | cons p ps => exact ⟨p, ps, rfl⟩
          have hpc : p = c := by
            have := congrArg (fun l => l.head?) ht
            simpa using this
          exact hc (hpc ▸ List.mem_cons_self p ps)
      | cons x xs' =>
          have hiff : (pat ≠ [] ∧ pat.isPrefixOf ((x :: xs') ++ c :: ys))
              ↔ (pat ≠ [] ∧ pat.isPrefixOf (x :: xs')) := by
            apply and_congr_right
            intro _
            constructor
            · intro h
              exact List.isPrefixOf_iff_prefix.2
                ((prefix_append_cons_iff hc).1 (List.isPrefixOf_iff_prefix.1 h))
            · intro h
              exact List.isPrefixOf_iff_prefix.2
                ((prefix_append_cons_iff hc).2 (List.isPrefixOf_iff_prefix.1 h))
          rw [List.cons_append, replDel_cons_eq pat x (xs' ++ c :: ys),
            replDel_cons_eq pat x xs']
          by_cases hp : pat ≠ [] ∧ pat.isPrefixOf (x :: xs')
          · rw [if_pos (by rw [← List.cons_append]; exact hiff.2 hp), if_pos hp]
            have hpre : pat <+: (x :: xs') := List.isPrefixOf_iff_prefix.1 hp.2
            have hple : pat.length ≤ (x :: xs').length := hpre.length_le
            have hp0 : 0 < pat.length := List.length_pos.2 hp.1
            have hdrop : (x :: (xs' ++ c :: ys)).drop pat.length
                = (x :: xs').drop pat.length ++ c :: ys := by
              rw [← List.cons_append]
              exact List.drop_append_of_le_length hple
            rw [hdrop]
            apply ih
            have := List.length_drop pat.length (x :: xs')
            simp only [List.length_cons] at this hlen ⊢
            omega
          · rw [if_neg (by rw [← List.cons_append]; exact fun h => hp (hiff.1 h)),
              if_neg hp]
            rw [ih xs' ys (by simp only [List.length_cons] at hlen; omega),
              List.cons_append]

theorem replDel_split (pat : List Char) (c : Char) (hc : c ∉ pat)
    (xs ys : List Char) :
    replDel pat (xs ++ c :: ys) = replDel pat xs ++ c :: replDel pat ys :=
  replDel_append_cons pat c hc xs.length xs ys (Nat.le_refl _)

theorem replDel_cons_notmem (pat : List Char) (c : Char) (hc : c ∉ pat)
    (ys : List Char) :
    replDel pat (c :: ys) = c :: replDel pat ys := by
  have := replDel_split pat c hc [] ys
  simpa [replDel_nil] using this

theorem head?_of_append_eq_cons {p : Char} {ps t ys : List Char} {c : Char}
    (ht : (p :: ps) ++ t = c :: ys) : p = c := by
  have := congrArg (fun l => l.head?) ht
  simpa using this

theorem replDel_head (pat : List Char) (hne : pat ≠ []) (t : List Char) :
    replDel pat (pat ++ t) = replDel pat t := by
  obtain ⟨p, ps, rfl⟩ : ∃ p ps, pat = p :: ps := by
    cases pat with
    | nil => exact absurd rfl hne
    | cons p ps => exact ⟨p, ps, rfl⟩
  have hpre : (p :: ps).isPrefixOf ((p :: ps) ++ t) = true :=
    List.isPrefixOf_iff_prefix.2 (List.prefix_append _ _)
  show replDel (p :: ps) (p :: (ps ++ t)) = replDel (p :: ps) t
  rw [replDel_cons_eq, if_pos ⟨hne, hpre⟩]
  congr 1
  show ((p :: ps) ++ t).drop (p :: ps).length = t
  exact List.drop_left _ _

theorem replDel_all_notmem (pat s : List Char) (hs : ∀ a ∈ s, a ∉ pat) :
    replDel pat s = s := by
  induction s with
  | nil => exact replDel_nil pat
  | cons a s' ih =>
      rw [replDel_cons_notmem pat a (hs a (by simp)) s',
        ih (fun b hb => hs b (by simp [hb]))]

theorem replDel_short (pat s : List Char) (h : s.length < pat.length) :
    replDel pat s = s := by
  induction s with
  | nil => exact replDel_nil pat
  | cons a s' ih =>
      rw [replDel_cons_eq, if_neg, ih (by simp only [List.length_cons] at h; omega)]
      rintro ⟨hne, hpre⟩
      have := (List.isPrefixOf_iff_prefix.1 hpre).length_le
      omega

theorem replDel_ws_left (pat w s : List Char) (hw : ∀ a ∈ w, a ∉ pat) :
    replDel pat (w ++ s) = w ++ replDel pat s := by
  induction w with
  | nil => simp
  | cons a w' ih =>
      rw [List.cons_append, replDel_cons_notmem pat a (hw a (by simp)),
        ih (fun b hb => hw b (by simp [hb])), List.cons_append]

theorem replDel_ws_right (pat s w : List Char) (hw : ∀ a ∈ w, a ∉ pat) :
    replDel pat (s ++ w) = replDel pat s ++ w := by
  cases w with
  | nil => simp
  | cons a w' =>
      rw [replDel_split pat a (hw a (by simp)) s w',
        replDel_all_notmem pat w' (fun b hb => hw b (by simp [hb]))]

theorem stripStart_ws (w s : List Char) (hw : ∀ a ∈ w, pySpace a = true) :
    stripStart (w ++ s) = stripStart s := by
  induction w with
  | nil => simp
  | cons a w' ih =>
      rw [List.cons_append]
      show List.dropWhile pySpace (a :: (w' ++ s)) = stripStart s
      rw [List.dropWhile_cons_of_pos (hw a (by simp))]
      exact ih (fun b hb => hw b (by simp [hb]))

theorem stripEnd_ws (s w : List Char) (hw : ∀ a ∈ w, pySpace a = true) :
    stripEnd (s ++ w) = stripEnd s := by
  simp only [stripEnd, List.reverse_append]
  exact congrArg List.reverse
    (stripStart_ws w.reverse s.reverse (fun a ha => hw a (List.mem_reverse.1 ha)))


theorem pyStrip_ws_both (w₁ x w₂ : List Char)
    (h₁ : ∀ a ∈ w₁, pySpace a = true) (h₂ : ∀ a ∈ w₂, pySpace a = true) :
    pyStrip (w₁ ++ x ++ w₂) = pyStrip x := by
  show stripStart (stripEnd (w₁ ++ x ++ w₂)) = stripStart (stripEnd x)
  rw [stripEnd_ws (w₁ ++ x) w₂ h₂]
  by_cases hx : x.reverse.dropWhile pySpace = []
  · have hse : stripEnd x = [] := by
      simp [stripEnd, hx]
    have hse' : stripEnd (w₁ ++ x) = [] := by
      simp only [stripEnd, List.reverse_append]
      rw [List.dropWhile_append, if_pos (by simp [hx])]
      have : List.dropWhile pySpace w₁.reverse = [] := by
        rw [List.dropWhile_eq_nil_iff]
        intro a ha
        exact h₁ a (List.mem_reverse.1 ha)
      simp [this]
    rw [hse, hse']
  · have hse : stripEnd (w₁ ++ x) = w₁ ++ stripEnd x := by
      simp only [stripEnd, List.reverse_append]
      rw [List.dropWhile_append, if_neg (by simpa using hx)]
      simp [List.reverse_append]
    rw [hse]
    exact stripStart_ws w₁ (stripEnd x) h₁

theorem stripStart_of_head_keep (a x : List Char)
    (ha : List.dropWhile pySpace a = a) (hne : a ≠ []) :
    stripStart (a ++ x) = a ++ x := by
  show List.dropWhile pySpace (a ++ x) = a ++ x
  rw [List.dropWhile_append, if_neg (by simp [ha, hne]), ha]

theorem stripEnd_of_last_keep (x a : List Char)
    (ha : List.dropWhile pySpace a.reverse = a.reverse) (hne : a ≠ []) :
    stripEnd (x ++ a) = x ++ a := by
  show ((x ++ a).reverse.dropWhile pySpace).reverse = x ++ a
  rw [List.reverse_append, List.dropWhile_append,
    if_neg (by simp [ha]; simpa using hne), ha]
  simp

theorem pyStrip_decomp (s : List Char) :
    ∃ w₁ w₂, (∀ a ∈ w₁, pySpace a = true) ∧ (∀ a ∈ w₂, pySpace a = true) ∧
      s = w₁ ++ pyStrip s ++ w₂ := by
  refine ⟨(stripEnd s).takeWhile pySpace, (s.reverse.takeWhile pySpace).reverse,
    ?_, ?_, ?_⟩
  · intro a ha
    exact List.mem_takeWhile_imp ha
  · intro a ha
    exact List.mem_takeWhile_imp (List.mem_reverse.1 ha)
  · have h1 : s = stripEnd s ++ (s.reverse.takeWhile pySpace).reverse := by
      conv_lhs => rw [← List.reverse_reverse s,
        ← List.takeWhile_append_dropWhile (p := pySpace) (l := s.reverse)]
      rw [List.reverse_append]
      rfl
    have h2 : stripEnd s = (stripEnd s).takeWhile pySpace ++ pyStrip s := by
      conv_lhs => rw [← List.takeWhile_append_dropWhile (p := pySpace) (l := stripEnd s)]
      rfl
    conv_lhs => rw [h1, h2]

theorem pyStrip_replDel_pyStrip (pat₁ pat₂ : List Char)
    (h₁ : ∀ a ∈ pat₁, pySpace a = false) (h₂ : ∀ a ∈ pat₂, pySpace a = false)
    (s : List Char) :
    pyStrip (replDel pat₂ (replDel pat₁ (pyStrip s)))
      = pyStrip (replDel pat₂ (replDel pat₁ s)) := by
  obtain ⟨w₁, w₂, hw₁, hw₂, hs⟩ := pyStrip_decomp s
  have hwp₁ : ∀ a ∈ w₁, a ∉ pat₁ := fun a ha hmem => by
    have ht := hw₁ a ha
    rw [h₁ a hmem] at ht
    exact Bool.false_ne_true ht
  have hwp₂ : ∀ a ∈ w₂, a ∉ pat₁ := fun a ha hmem => by
    have ht := hw₂ a ha
    rw [h₁ a hmem] at ht
    exact Bool.false_ne_true ht
  have hwq₁ : ∀ a ∈ w₁, a ∉ pat₂ := fun a ha hmem => by
    have ht := hw₁ a ha
    rw [h₂ a hmem] at ht
    exact Bool.false_ne_true ht
  have hwq₂ : ∀ a ∈ w₂, a ∉ pat₂ := fun a ha hmem => by
    have ht := hw₂ a ha
    rw [h₂ a hmem] at ht
    exact Bool.false_ne_true ht
  conv_rhs => rw [hs]
  rw [List.append_assoc, replDel_ws_left pat₁ w₁ _ hwp₁,
    replDel_ws_right pat₁ _ w₂ hwp₂,
    replDel_ws_left pat₂ w₁ _ hwq₁, replDel_ws_right pat₂ _ w₂ hwq₂,
    ← List.append_assoc]
  rw [pyStrip_ws_both w₁ _ w₂ hw₁ hw₂]


theorem pyStrip_wrapFence (s : List Char) : pyStrip (wrapFence s) = wrapFence s := by
  have h1 : stripEnd (("```json\n".data ++ s) ++ "\n```".data)
      = ("```json\n".data ++ s) ++ "\n```".data :=
    stripEnd_of_last_keep _ _ (by decide) (by decide)
  have h2 : stripStart ("```json\n".data ++ (s ++ "\n```".data))
      = "```json\n".data ++ (s ++ "\n```".data) :=
    stripStart_of_head_keep _ _ (by decide) (by decide)
  show stripStart (stripEnd (wrapFence s)) = wrapFence s
  rw [wrapFence, h1, List.append_assoc]
  exact h2

theorem preprocess_wrapFence (s : List Char) :
    preprocess (wrapFence s) = preprocess s := by
  have hwrap : wrapFence s = fenceJson ++ ('\n' :: (s ++ '\n' :: fenceBare)) := by
    rw [wrapFence, show "```json\n".data = fenceJson ++ ['\n'] from by decide,
      show "\n```".data = '\n' :: fenceBare from by decide]
    simp [List.append_assoc]
  have hB : replDel fenceJson (wrapFence s)
      = '\n' :: (replDel fenceJson s ++ '\n' :: fenceBare) := by
    rw [hwrap, replDel_head fenceJson (by decide),
      replDel_cons_notmem fenceJson '\n' (by decide),
      replDel_split fenceJson '\n' (by decide) s fenceBare,
      replDel_short fenceJson fenceBare (by decide)]
  have hbareEmpty : replDel fenceBare fenceBare = [] := by
    have := replDel_head fenceBare (by decide) []
    simpa [replDel_nil] using this
  have hC : replDel fenceBare ('\n' :: (replDel fenceJson s ++ '\n' :: fenceBare))
      = '\n' :: (replDel fenceBare (replDel fenceJson s) ++ ['\n']) := by
    rw [replDel_cons_notmem fenceBare '\n' (by decide),
      replDel_split fenceBare '\n' (by decide) _ fenceBare, hbareEmpty]
  have hD : pyStrip ('\n' :: (replDel fenceBare (replDel fenceJson s) ++ ['\n']))
      = pyStrip (replDel fenceBare (replDel fenceJson s)) := by
    have := pyStrip_ws_both ['\n'] (replDel fenceBare (replDel fenceJson s)) ['\n']
      (by decide) (by decide)
    simpa using this
  show pyStrip (replDel fenceBare (replDel fenceJson (pyStrip (wrapFence s))))
      = preprocess s
  rw [pyStrip_wrapFence, hB, hC, hD]
  exact (pyStrip_replDel_pyStrip fenceJson fenceBare (by decide) (by decide) s).symm

/-- C7: for every planner response, wrapping the response in a
```` ```json ... ``` ```` code fence does not change the parsed Plan (the
fence markers are stripped before parsing), and whenever the preprocessed
response fails to parse as structured data, `plan` returns the
`{"type": "explain"}` fallback instead of raising. -/
theorem c7_fence_stripping_and_fallback (J : List Char → Option Plan)
    (resp : List Char) :
    plannerParse J (wrapFence resp) = plannerParse J resp ∧
    (J (preprocess resp) = none →
      plannerParse J resp = { ptype := "explain", steps := [] }) := by
  constructor
  · show (match J (preprocess (wrapFence resp)) with
      | some p => p
      | none => { ptype := "explain", steps := [] }) = plannerParse J resp
    rw [preprocess_wrapFence]
    rfl
  · intro h
    show (match J (preprocess resp) with
      | some p => p
      | none => { ptype := "explain", steps := [] }) = { ptype := "explain", steps := [] }
    rw [h]

/-- Witness for C7 with the always-failing parser and a concrete response:
the fenced and unfenced forms parse identically, and the parse failure
yields the explain fallback. -/
theorem c7_witness :
    plannerParse (fun _ => none) (wrapFence "hello".data)
      = plannerParse (fun _ => none) "hello".data ∧
    plannerParse (fun _ => none) "hello".data = { ptype := "explain", steps := [] } :=
  ⟨(c7_fence_stripping_and_fallback (fun _ => none) "hello".data).1,
   (c7_fence_stripping_and_fallback (fun _ => none) "hello".data).2 rfl⟩


/-! ## Dataset state and rebuild lifecycle (`app/services/rag_service.py`) -/

/-- The schema documents built for retrieval memory
(`models/rag/schema_docs.build_schema_docs`). -/
def build_schema_docs (schema : Schema) : List String :=
  schema.map (fun p =>
    p.1 ++ " refers to the column '" ++ p.2 ++ "' in the dataset.")

/-- The one-paragraph dataset summary
(`models/rag/dataset_summary.build_dataset_summary`); its text depends only
on the row and column counts. -/
def build_dataset_summary (df : DataFrame) : String :=
  "\nThis Excel file contains " ++ toString df.rows.length ++ " rows and "
    ++ toString df.cols.length ++ " columns.\n"
    ++ "It includes business data related to products, vendors, plants, costs, categories, quality ratings, and regions.\n"
    ++ "It is used for supply chain, procurement, and inventory analysis.\n"

/-- The planner object (`models/core/planner.Planner.__init__`): the schema
and the prompt template read from disk. -/
structure Planner where
  schema : Schema
  prompt : List Char
deriving DecidableEq

/-- The retriever wraps the vector store (`models/rag/retriever.py`). -/
structure Retriever where
  vectorstore : VectorStore
deriving DecidableEq

/-- `RAGState`: the process-wide holder of the loaded dataset and the
objects built from it. -/
structure RAGState where
  df : Option DataFrame
  schema : Option Schema
  planner : Option Planner
  engine : Option AnalyticsEngine
  retriever : Option Retriever
  initialized : Bool
  file_count : Nat
deriving DecidableEq

/-- `RAGState.is_initialized`. -/
def RAGState.is_initialized (st : RAGState) : Bool :=
  st.initialized && st.df.isSome

/-- The external effects `initialize_rag_system` consumes: the glob result
over the uploads directory and the outcomes of the blocking collaborator
calls (Excel loading, the prompt-file read, the embedding call). -/
structure BuildEnv where
  files : List String
  loadResult : Except String DataFrame
  promptResult : Except String (List Char)
  embedResult : Except String (List (List ℚ))
deriving DecidableEq

/-- `initialize_rag_system`: returns failure without touching the state when
no candidate files exist; is a no-op success when already initialized with
an unchanged file count and no forced rebuild; otherwise rebuilds, mutating
the state field by field in source order — a load or prompt-read failure
lands in the outer `except` which clears `initialized`, while a failure
while building retrieval memory only disables the retriever. -/
def initialize_rag_system (st : RAGState) (env : BuildEnv)
    (force_rebuild : Bool) : Bool × RAGState :=
  if env.files.isEmpty then (false, st)
  else if st.is_initialized && !force_rebuild
      && (env.files.length == st.file_count) then (true, st)
  else
    match env.loadResult with
    | .error _ => (false, { st with initialized := false })
    | .ok df =>
        let st := { st with df := some df }
        let schema := build_schema df
        let st := { st with schema := some schema }
        match env.promptResult with
        | .error _ => (false, { st with initialized := false })
        | .ok prompt =>
            let st := { st with
              planner := some { schema := schema, prompt := prompt },
              engine := some { df := df, schema := schema } }
            let rag_texts := build_schema_docs schema ++ [build_dataset_summary df]
            let st :=
              match env.embedResult with
              | .error _ => { st with retriever := none }
              | .ok embs =>
                  match mkVectorStore embs rag_texts with
                  | .error _ => { st with retriever := none }
                  | .ok vs => { st with retriever := some { vectorstore := vs } }
            (true, { st with file_count := env.files.length, initialized := true })

/-- C8: when zero candidate dataset files exist, `initialize` reports
failure and leaves a previously Ready state untouched — every field
(dataset, schema, planner, engine, retriever, file count, readiness) keeps
its value. -/
theorem c8_initialize_no_files_noop
    (st : RAGState) (env : BuildEnv) (force_rebuild : Bool)
    (_hready : st.is_initialized = true)
    (hfiles : env.files = []) :
    initialize_rag_system st env force_rebuild = (false, st) := by
  rw [initialize_rag_system, if_pos (by simp [hfiles])]

/-- A concrete Ready state over the worked-example dataset. -/
def readyState : RAGState :=
  { df := some dfNS, schema := some schemaNS,
    planner := some { schema := schemaNS, prompt := [] },
    engine := some engineNS, retriever := none,
    initialized := true, file_count := 2 }

/-- Witness for C8 at a concrete Ready state and an empty uploads
directory. -/
theorem c8_witness :
    readyState.is_initialized = true ∧
    initialize_rag_system readyState
      { files := [], loadResult := .error "no data",
        promptResult := .ok [], embedResult := .error "quota" } false
      = (false, readyState) :=
  ⟨by decide,
    c8_initialize_no_files_noop readyState
      { files := [], loadResult := .error "no data",
        promptResult := .ok [], embedResult := .error "quota" } false
      (by decide) rfl⟩

end HybridRag
